import Mathlib

/-!
Verification of the rainbow terminal-output filter ('rainbow.c').

The byte-level classifier state machine, cursor model, colour engine and the
session teardown control flow are embedded shallowly: bytes are `Nat` values
in `[0, 255]`, the C `int` cursor counters are `Int`, the C `float`
parameters are `ℝ`, and the side effect of writing to stdout is an explicit
list of output items.
-/

namespace Rainbow

/-- ASCII letter test: C `isalpha` in the default locale on the byte values
the parser can meet (the code applies it to buffer bytes; for non-ASCII
values glibc's table yields false). -/
def isalpha (b : Nat) : Prop := (65 ≤ b ∧ b ≤ 90) ∨ (97 ≤ b ∧ b ≤ 122)

instance : DecidablePred isalpha := fun b => by unfold isalpha; infer_instance

/-- ASCII digit test, C `isdigit`. -/
def isdigit (b : Nat) : Prop := 48 ≤ b ∧ b ≤ 57

instance : DecidablePred isdigit := fun b => by unfold isdigit; infer_instance

/-- Scan a decimal digit run, accumulating its value; mirrors the
`for (; *s && isdigit(*s); s++) { *n *= 10; *n += *s - '0'; }` loops of
`parsenandm` (the end of the list plays the role of the NUL/terminator
byte that stops the C loop). -/
def scandigits : List Nat → Nat → Nat × List Nat
  | [], n => (n, [])
  | b :: rest, n =>
    if isdigit b then scandigits rest (n * 10 + (b - 48)) else (n, b :: rest)

/-- `parsenandm` from the source: parse up to two `;`-separated decimal
integers; a missing part is left at 0. -/
def parsenandm (s : List Nat) : Nat × Nat :=
  let r1 := scandigits s 0
  match r1.2 with
  | [] => (r1.1, 0)
  | b :: s2 => if b = 59 then (r1.1, (scandigits s2 0).1) else (r1.1, 0)

/-- Decimal value of a digit-byte list, for stating what `parsenandm`
computes on well-formed parameter strings. -/
def natOfDigits (ds : List Nat) : Nat := ds.foldl (fun a d => a * 10 + (d - 48)) 0

/-- The per-session colour parameters: `freq`, `spread` and the random
offset `os` from `loop`. -/
structure Params where
  freq : ℝ
  spread : ℝ
  os : ℝ

/-- `rainbow` from the source: three sine waves phased `2π/3` apart, each
mapped by `value * 127 + 128` and truncated to `int` (the value is in
`[1, 255]`, so C truncation is the floor). -/
noncomputable def rainbow (freq : ℝ) (i : ℝ) : ℤ × ℤ × ℤ :=
  (⌊Real.sin (freq * i + 0) * 127 + 128⌋,
   ⌊Real.sin (freq * i + 2 * Real.pi / 3) * 127 + 128⌋,
   ⌊Real.sin (freq * i + 4 * Real.pi / 3) * 127 + 128⌋)

/-- `ansicolour8bit` from the source: `int red1 = red / 256.0 * 5;` etc.
For `red ≤ 255` the double arithmetic is exact, so the truncation equals
`red * 5 / 256` in natural division.  Emits `ESC [ 3 8 ; 5 ; colour m`. -/
def ansicolour8bit (red green blue : Nat) : List Nat :=
  let red1 := red * 5 / 256
  let green1 := green * 5 / 256
  let blue1 := blue * 5 / 256
  let colour := 16 + 36 * red1 + 6 * green1 + blue1
  [27, 91, 51, 56, 59, 53, 59] ++ (Nat.toDigits 10 colour).map Char.toNat ++ [109]

/-- The 8-bit reduced encoding as the specification words it, with the
`⌊channel / 256 * 6⌋` cube coordinates; kept beside `ansicolour8bit` for
comparison. -/
def ansicolour8bitSpec (red green blue : Nat) : List Nat :=
  let colour := 16 + 36 * (red * 6 / 256) + 6 * (green * 6 / 256) + (blue * 6 / 256)
  [27, 91, 51, 56, 59, 53, 59] ++ (Nat.toDigits 10 colour).map Char.toNat ++ [109]

/-- `ansicolourreset` from the source: the bytes of `"\x1b[0m"`. -/
def ansicolourresetBytes : List Nat := [27, 91, 48, 109]

/-- One write to stdout performed by the classifier: either a 24-bit
colour-set sequence (`ansicolour24bit`, carrying the RGB triple) or raw
bytes emitted verbatim. -/
inductive OutputItem where
  | colourSet (r g b : ℤ)
  | raw (s : List Nat)
deriving DecidableEq

/-- Decimal byte rendering of an integer channel value, as `fprintf %d`
produces it. -/
def intToBytes (n : ℤ) : List Nat := (toString n).data.map Char.toNat

/-- Bytes written for one output item; a colour set renders as
`ESC [ 3 8 ; 2 ; r ; g ; b m` (`ansicolour24bit` in the source). -/
def renderItem : OutputItem → List Nat
  | OutputItem.colourSet r g b =>
      27 :: 91 :: 51 :: 56 :: 59 :: 50 :: 59 ::
        (intToBytes r ++ [59] ++ intToBytes g ++ [59] ++ intToBytes b ++ [109])
  | OutputItem.raw s => s

/-- Bytes written for a list of output items, in order. -/
def renderItems (l : List OutputItem) : List Nat := (l.map renderItem).flatten

/-- Which of the three parser functions is the current state
(`parsetext`, `parseescapesequence`, `parseutf8`). -/
inductive ParserTag where
  | text
  | escapesequence
  | utf8
deriving DecidableEq

/-- The classifier's mutable state: the current parser function, the
accumulation buffer `keep`, the cursor counters `row`/`column` (statics of
`output`, both starting at 1) and the saved cursor `prevrow`/`prevcolumn`
(statics of `parseescapesequence`, zero-initialised). -/
structure MachineState where
  parser : ParserTag
  keep : List Nat
  row : Int
  column : Int
  prevrow : Int
  prevcolumn : Int
deriving DecidableEq

/-- The initial state of `output`'s statics. -/
def initialState : MachineState := ⟨ParserTag.text, [], 1, 1, 0, 0⟩

/-- `"\x1b[?1049h"` — xterm enable alternative screen buffer. -/
def xtermenablealternativebuffer : List Nat := [27, 91, 63, 49, 48, 52, 57, 104]

/-- `"\x1b[?1049l"` — xterm disable alternative screen buffer. -/
def xtermdisablealternativebuffer : List Nat := [27, 91, 63, 49, 48, 52, 57, 108]

/-- Completion condition of the CSI branch: `keep[1] == '[' &&
(isalpha(keep[keepi-1]) || keep[keepi-1] == '@')`. -/
def csiComplete (keep : List Nat) : Prop :=
  keep.getD 1 0 = 91 ∧
    (isalpha (keep.getD (keep.length - 1) 0) ∨ keep.getD (keep.length - 1) 0 = 64)

instance : DecidablePred csiComplete := fun keep => by unfold csiComplete; infer_instance

/-- Completion condition of the OSC / DCS / fixed-length-forms branch. -/
def oscComplete (keep : List Nat) : Prop :=
  (keep.getD 1 0 = 93 ∧ keep.getD (keep.length - 1) 0 = 7) ∨
  (keep.getD 1 0 = 93 ∧ keep.getD (keep.length - 2) 0 = 27 ∧
    keep.getD (keep.length - 1) 0 = 92) ∨
  (keep.getD 1 0 = 80 ∧ keep.getD (keep.length - 2) 0 = 27 ∧
    keep.getD (keep.length - 1) 0 = 92) ∨
  (keep.length = 3 ∧ keep.getD 1 0 = 40) ∨ (keep.length = 3 ∧ keep.getD 1 0 = 41) ∨
  (keep.length = 2 ∧ keep.getD 1 0 = 61) ∨ (keep.length = 2 ∧ keep.getD 1 0 = 62) ∨
  (keep.length = 2 ∧ keep.getD 1 0 = 55) ∨ (keep.length = 2 ∧ keep.getD 1 0 = 56) ∨
  (keep.length = 2 ∧ keep.getD 1 0 = 72) ∨ (keep.length = 2 ∧ keep.getD 1 0 = 77) ∨
  (keep.length = 2 ∧ keep.getD 1 0 = 99)

instance : DecidablePred oscComplete := fun keep => by unfold oscComplete; infer_instance

/-- Completion condition of the screen/tmux branch:
`keep[1] == 'k' || keep[1] == '\\'`. -/
def titleComplete (keep : List Nat) : Prop :=
  keep.getD 1 0 = 107 ∨ keep.getD 1 0 = 92

instance : DecidablePred titleComplete := fun keep => by unfold titleComplete; infer_instance

/-- A buffer on which `parseescapesequence` emits and returns to
`parsetext`: some emitting branch's condition holds. -/
def escCompletes (keep : List Nat) : Prop :=
  csiComplete keep ∨ oscComplete keep ∨ titleComplete keep

instance : DecidablePred escCompletes := fun keep => by unfold escCompletes; infer_instance

/-- The `switch (keep[*keepi - 1])` of the CSI branch: cursor movement by
terminator byte, `n` and `m` already defaulted to 1. -/
def csidispatch (last : Nat) (row0 col0 n m : Int) : Int × Int :=
  if last = 65 then (row0 - n, col0)
  else if last = 66 then (row0 + n, col0)
  else if last = 67 then (row0, col0 + n)
  else if last = 68 then (row0, col0 - n)
  else if last = 69 then (row0 + n, 1)
  else if last = 70 then (row0 - n, 1)
  else if last = 71 then (row0, n)
  else if last = 72 then (n, m)
  else if last = 102 then (n, m)
  else (row0, col0)

/-- The bytes `fputs` actually writes from the NUL-terminated buffer
(`keep[*keepi] = '\0'; fputs(keep, stdout);` in the source): everything
before the first NUL byte.  A buffer with an embedded `0x00` is truncated
there. -/
def fputsBytes (l : List Nat) : List Nat := l.takeWhile (fun b => b != 0)

/-- `parseescapesequence` from the source.  The byte is appended to `keep`;
the alternative-screen save/restore and RIS cursor effects run first (an
`if`/`else if` chain keyed on the whole buffer), then the three emitting
branches are tried.  Each emitting branch NUL-terminates the buffer and
writes it with `fputs`, so the written bytes are `fputsBytes keep`. -/
def parseescapesequence (s : MachineState) (ch : Nat) :
    MachineState × List OutputItem :=
  let keep := s.keep ++ [ch]
  let ki := keep.length
  let last := keep.getD (ki - 1) 0
  let pr := if keep = xtermenablealternativebuffer then s.row else s.prevrow
  let pc := if keep = xtermenablealternativebuffer then s.column else s.prevcolumn
  let row0 :=
    if keep = xtermenablealternativebuffer then s.row
    else if keep = xtermdisablealternativebuffer then s.prevrow
    else if ki = 2 ∧ keep.getD 1 0 = 99 then 1 else s.row
  let col0 :=
    if keep = xtermenablealternativebuffer then s.column
    else if keep = xtermdisablealternativebuffer then s.prevcolumn
    else if ki = 2 ∧ keep.getD 1 0 = 99 then 1 else s.column
  if csiComplete keep then
    let nm := parsenandm (keep.drop 2)
    let n : Int := Int.ofNat (if nm.1 = 0 then 1 else nm.1)
    let m : Int := Int.ofNat (if nm.2 = 0 then 1 else nm.2)
    let rc := csidispatch last row0 col0 n m
    (⟨ParserTag.text, [], rc.1, rc.2, pr, pc⟩, [OutputItem.raw (fputsBytes keep)])
  else if oscComplete keep then
    (⟨ParserTag.text, [], row0, col0, pr, pc⟩, [OutputItem.raw (fputsBytes keep)])
  else if titleComplete keep then
    (⟨ParserTag.text, [], row0, col0, pr, pc⟩, [OutputItem.raw (fputsBytes keep)])
  else
    (⟨ParserTag.escapesequence, keep, row0, col0, pr, pc⟩, [])

/-- `parseutf8` from the source.  The byte is appended; when the buffer
length matches the length declared by the lead byte's high bits
(`>> 5 == 0b110` is `/ 32 = 6`, `>> 4 == 0b1110` is `/ 16 = 14`,
`>> 3 == 0b11110` is `/ 8 = 30`) the buffer is emitted as one coloured
character, the column advancing by exactly one first.  The emission
NUL-terminates the buffer and writes it with `fputs`, so the written
bytes are `fputsBytes keep` (truncated at an embedded NUL). -/
noncomputable def parseutf8 (p : Params) (s : MachineState) (ch : Nat) :
    MachineState × List OutputItem :=
  let keep := s.keep ++ [ch]
  let ki := keep.length
  let b0 := keep.getD 0 0
  if (ki = 2 ∧ b0 / 32 = 6) ∨ (ki = 3 ∧ b0 / 16 = 14) ∨ (ki = 4 ∧ b0 / 8 = 30) then
    let column := s.column + 1
    let c := rainbow p.freq (p.os + (s.row : ℝ) + (column : ℝ) / p.spread)
    (⟨ParserTag.text, [], s.row, column, s.prevrow, s.prevcolumn⟩,
     [OutputItem.colourSet c.1 c.2.1 c.2.2, OutputItem.raw (fputsBytes keep)])
  else
    (⟨ParserTag.utf8, keep, s.row, s.column, s.prevrow, s.prevcolumn⟩, [])

/-- `parsetext` from the source.  ESC starts an escape sequence, a byte
with the high bit set (`ch & 128`, i.e. `128 ≤ ch` for a byte) starts a
UTF-8 sequence, any other byte updates the cursor and is emitted behind
one colour-set sequence. -/
noncomputable def parsetext (p : Params) (s : MachineState) (ch : Nat) :
    MachineState × List OutputItem :=
  if ch = 27 then
    (⟨ParserTag.escapesequence, [27], s.row, s.column, s.prevrow, s.prevcolumn⟩, [])
  else if 128 ≤ ch then
    (⟨ParserTag.utf8, [ch], s.row, s.column, s.prevrow, s.prevcolumn⟩, [])
  else
    let row := if ch = 10 then s.row + 1 else s.row
    let column :=
      if ch = 10 then 1
      else if ch = 8 then s.column - 1
      else if ch = 13 then 1
      else if ch = 9 then s.column + (8 - Int.tmod s.column 8)
      else s.column + 1
    let c := rainbow p.freq (p.os + (row : ℝ) + (column : ℝ) / p.spread)
    (⟨ParserTag.text, s.keep, row, column, s.prevrow, s.prevcolumn⟩,
     [OutputItem.colourSet c.1 c.2.1 c.2.2, OutputItem.raw [ch]])

/-- One classifier invocation: dispatch on the current parser function. -/
noncomputable def step (p : Params) (s : MachineState) (ch : Nat) :
    MachineState × List OutputItem :=
  match s.parser with
  | ParserTag.text => parsetext p s ch
  | ParserTag.escapesequence => parseescapesequence s ch
  | ParserTag.utf8 => parseutf8 p s ch

/-- The `output` loop: feed the bytes to the parser in order, collecting
everything written to stdout. -/
noncomputable def run (p : Params) : MachineState → List Nat → MachineState × List OutputItem
  | s, [] => (s, [])
  | s, ch :: rest =>
    let r1 := step p s ch
    let r2 := run p r1.1 rest
    (r2.1, r1.2 ++ r2.2)

/-- The stdout writes of `parent` as a function of which steps succeed:
`windowsizecopy`, `signals` and `termiosraw` precede the loop and write
nothing; on any failure `parent` returns at once, so `ansicolourreset`
runs only when `loop` and `termiosreset` both succeeded. -/
def parentStdout (wsok sigok rawok loopok tresetok : Bool) (loopOut : List Nat) :
    List Nat :=
  if wsok = false then []
  else if sigok = false then []
  else if rawok = false then []
  else if loopok = false then loopOut
  else if tresetok = false then loopOut
  else loopOut ++ ansicolourresetBytes

/-- A fixed parameter triple for concrete evaluations; the machine's
control flow never depends on it. -/
noncomputable def pW : Params := ⟨1 / 10, 3, 0⟩

/-- On a buffer with no NUL byte, `fputs` writes every byte. -/
lemma fputsBytes_eq_self (l : List Nat) (h : ∀ b ∈ l, b ≠ 0) : fputsBytes l = l := by
  induction l with
  | nil => rfl
  | cons a t ih =>
    have ha : a ≠ 0 := h a (by simp)
    have ht := ih (fun b hb => h b (by simp [hb]))
    unfold fputsBytes at ht ⊢
    simp [List.takeWhile_cons, ha, ht]

/-- The element a `getD` read at the index of the appended last element. -/
lemma getD_concat (l : List Nat) (b : Nat) : (l ++ [b]).getD l.length 0 = b := by
  induction l with
  | nil => rfl
  | cons a l ih =>
    simp only [List.cons_append, List.length_cons, List.getD_cons_succ]
    exact ih

/-- `run` distributes over input concatenation. -/
lemma run_append (p : Params) (s : MachineState) (xs ys : List Nat) :
    run p s (xs ++ ys) =
      ((run p (run p s xs).1 ys).1, (run p s xs).2 ++ (run p (run p s xs).1 ys).2) := by
  induction xs generalizing s with
  | nil => simp [run]
  | cons x xs ih => simp [run, ih, List.append_assoc]

/-- In the text state, ESC starts an escape sequence and emits nothing. -/
lemma step_text_esc (p : Params) (s : MachineState) (hp : s.parser = ParserTag.text) :
    step p s 27 =
      (⟨ParserTag.escapesequence, [27], s.row, s.column, s.prevrow, s.prevcolumn⟩, []) := by
  obtain ⟨tag, kp, r, c, pr, pc⟩ := s
  cases hp
  simp [step, parsetext]

/-- While no completion condition holds, `parseescapesequence` only
accumulates: the buffer grows and neither output nor cursor change. -/
lemma step_esc_stay (p : Params) (s : MachineState) (ch : Nat)
    (hp : s.parser = ParserTag.escapesequence)
    (h : ¬ escCompletes (s.keep ++ [ch])) :
    step p s ch =
      (⟨ParserTag.escapesequence, s.keep ++ [ch], s.row, s.column,
        s.prevrow, s.prevcolumn⟩, []) := by
  obtain ⟨tag, kp, r, c, pr, pc⟩ := s
  cases hp
  have hcsi : ¬ csiComplete (kp ++ [ch]) := fun hc => h (Or.inl hc)
  have hosc : ¬ oscComplete (kp ++ [ch]) := fun hc => h (Or.inr (Or.inl hc))
  have htit : ¬ titleComplete (kp ++ [ch]) := fun hc => h (Or.inr (Or.inr hc))
  have hen : ¬ (kp ++ [ch] = xtermenablealternativebuffer) := by
    intro he
    rw [he] at hcsi
    exact hcsi (by decide)
  have hdis : ¬ (kp ++ [ch] = xtermdisablealternativebuffer) := by
    intro he
    rw [he] at hcsi
    exact hcsi (by decide)
  have hris : ¬ ((kp ++ [ch]).length = 2 ∧ (kp ++ [ch]).getD 1 0 = 99) := by
    intro hr
    exact hosc (Or.inr (Or.inr (Or.inr (Or.inr (Or.inr (Or.inr (Or.inr (Or.inr
      (Or.inr (Or.inr (Or.inr hr)))))))))))
  simp only [step, parseescapesequence]
  rw [if_neg hen, if_neg hen, if_neg hen, if_neg hdis, if_neg hris, if_neg hen,
    if_neg hdis, if_neg hris, if_neg hcsi, if_neg hosc, if_neg htit]

/-- When a completion condition holds, `parseescapesequence` emits the
whole buffer verbatim, clears it and returns to the text state. -/
lemma step_esc_emit (p : Params) (s : MachineState) (ch : Nat)
    (hp : s.parser = ParserTag.escapesequence)
    (h : escCompletes (s.keep ++ [ch])) :
    (step p s ch).2 = [OutputItem.raw (fputsBytes (s.keep ++ [ch]))] ∧
    (step p s ch).1.parser = ParserTag.text ∧ (step p s ch).1.keep = [] := by
  obtain ⟨tag, kp, r, c, pr, pc⟩ := s
  cases hp
  simp only [step, parseescapesequence]
  by_cases hcsi : csiComplete (kp ++ [ch])
  · rw [if_pos hcsi]
    exact ⟨rfl, rfl, rfl⟩
  · rw [if_neg hcsi]
    by_cases hosc : oscComplete (kp ++ [ch])
    · rw [if_pos hosc]
      exact ⟨rfl, rfl, rfl⟩
    · rw [if_neg hosc]
      have htit : titleComplete (kp ++ [ch]) := by
        rcases h with hc | hc | hc
        · exact absurd hc hcsi
        · exact absurd hc hosc
        · exact hc
      rw [if_pos htit]
      exact ⟨rfl, rfl, rfl⟩

/-- Feeding bytes that never complete the escape sequence only grows the
buffer, with no output and no cursor movement. -/
lemma run_esc_stay (p : Params) (bs : List Nat) :
    ∀ (kp : List Nat) (r c pr pc : Int),
    (∀ k, k < bs.length → ¬ escCompletes (kp ++ bs.take (k + 1))) →
    run p ⟨ParserTag.escapesequence, kp, r, c, pr, pc⟩ bs =
      (⟨ParserTag.escapesequence, kp ++ bs, r, c, pr, pc⟩, []) := by
  induction bs with
  | nil =>
    intro kp r c pr pc _
    simp [run]
  | cons b bs ih =>
    intro kp r c pr pc h
    have h0 : ¬ escCompletes (kp ++ [b]) := by
      have := h 0 (by simp)
      simpa using this
    have hstep := step_esc_stay p ⟨ParserTag.escapesequence, kp, r, c, pr, pc⟩ b rfl h0
    have hrest : ∀ k, k < bs.length → ¬ escCompletes ((kp ++ [b]) ++ bs.take (k + 1)) := by
      intro k hk
      have := h (k + 1) (by simpa using Nat.succ_lt_succ hk)
      simpa [List.append_assoc] using this
    simp only [run, hstep]
    rw [ih (kp ++ [b]) r c pr pc hrest]
    simp [List.append_assoc]

/-- A full escape sequence: an accumulation phase that never completes,
then a final byte that does.  The whole buffer is emitted verbatim as a
single raw item and the parser returns to the text state. -/
lemma run_esc_all (p : Params) (mid : List Nat) (t : Nat) (kp : List Nat)
    (r c pr pc : Int)
    (hstay : ∀ k, k < mid.length → ¬ escCompletes (kp ++ mid.take (k + 1)))
    (hdone : escCompletes (kp ++ mid ++ [t])) :
    (run p ⟨ParserTag.escapesequence, kp, r, c, pr, pc⟩ (mid ++ [t])).2 =
      [OutputItem.raw (fputsBytes (kp ++ mid ++ [t]))] ∧
    (run p ⟨ParserTag.escapesequence, kp, r, c, pr, pc⟩ (mid ++ [t])).1.parser =
      ParserTag.text := by
  rw [run_append]
  rw [run_esc_stay p mid kp r c pr pc hstay]
  have hd : escCompletes ((kp ++ mid) ++ [t]) := by
    simpa [List.append_assoc] using hdone
  have hemit := step_esc_emit p ⟨ParserTag.escapesequence, kp ++ mid, r, c, pr, pc⟩ t rfl hd
  simp only [run] at hemit ⊢
  refine ⟨?_, ?_⟩
  · simp only [List.append_nil, List.nil_append]
    rw [hemit.1]
  · exact hemit.2.1

/-- In a buffer `ESC [ …`, exactly the CSI rule decides completion: the
buffer completes iff its newest byte is an ASCII letter or `@`. -/
lemma escCompletes_csi_buffer (ys : List Nat) (b : Nat) :
    escCompletes (27 :: 91 :: (ys ++ [b])) ↔ (isalpha b ∨ b = 64) := by
  have hlen : (27 :: 91 :: (ys ++ [b])).length = ys.length + 3 := by
    simp
  have hget1 : (27 :: 91 :: (ys ++ [b])).getD 1 0 = 91 := rfl
  have hlast : (27 :: 91 :: (ys ++ [b])).getD ((27 :: 91 :: (ys ++ [b])).length - 1) 0 = b := by
    rw [hlen]
    show (27 :: 91 :: (ys ++ [b])).getD (ys.length + 2) 0 = b
    simp only [List.getD_cons_succ]
    exact getD_concat ys b
  constructor
  · rintro (hc | hc | hc)
    · rcases hc with ⟨-, h2⟩
      rwa [hlast] at h2
    · rcases hc with ⟨h1, -⟩ | ⟨h1, -⟩ | ⟨h1, -⟩ | ⟨-, h1⟩ | ⟨-, h1⟩ |
        ⟨-, h1⟩ | ⟨-, h1⟩ | ⟨-, h1⟩ | ⟨-, h1⟩ | ⟨-, h1⟩ | ⟨-, h1⟩ | ⟨-, h1⟩
      all_goals rw [hget1] at h1
      all_goals exact absurd h1 (by decide)
    · rcases hc with h1 | h1
      · rw [hget1] at h1; exact absurd h1 (by decide)
      · rw [hget1] at h1; exact absurd h1 (by decide)
  · intro hb
    left
    exact ⟨hget1, by rwa [hlast]⟩

/-- The last element of a CSI buffer read the way `parseescapesequence`
reads it. -/
lemma csi_buffer_last (ys : List Nat) (b : Nat) :
    (27 :: 91 :: (ys ++ [b])).getD ((27 :: 91 :: (ys ++ [b])).length - 1) 0 = b := by
  have hlen : (27 :: 91 :: (ys ++ [b])).length = ys.length + 3 := by
    simp
  rw [hlen]
  show (27 :: 91 :: (ys ++ [b])).getD (ys.length + 2) 0 = b
  simp only [List.getD_cons_succ]
  exact getD_concat ys b

/-- A CSI buffer whose terminator is not `h` is not the
enable-alternative-buffer string. -/
lemma csi_buffer_ne_enable (mid : List Nat) (t : Nat) (h : t ≠ 104) :
    27 :: 91 :: (mid ++ [t]) ≠ xtermenablealternativebuffer := by
  intro he
  have h1 : ((27 :: 91 :: mid) ++ [t]).getLast? = some t := List.getLast?_concat _
  rw [show (27 :: 91 :: mid) ++ [t] = 27 :: 91 :: (mid ++ [t]) by simp, he] at h1
  exact h (by simpa [xtermenablealternativebuffer] using h1.symm)

/-- A CSI buffer whose terminator is not `l` is not the
disable-alternative-buffer string. -/
lemma csi_buffer_ne_disable (mid : List Nat) (t : Nat) (h : t ≠ 108) :
    27 :: 91 :: (mid ++ [t]) ≠ xtermdisablealternativebuffer := by
  intro he
  have h1 : ((27 :: 91 :: mid) ++ [t]).getLast? = some t := List.getLast?_concat _
  rw [show (27 :: 91 :: mid) ++ [t] = 27 :: 91 :: (mid ++ [t]) by simp, he] at h1
  exact h (by simpa [xtermdisablealternativebuffer] using h1.symm)

/-- A trailing non-digit byte is left where the digit scan stops. -/
lemma scandigits_concat (t : Nat) (ht : ¬ isdigit t) (xs : List Nat) :
    ∀ a, scandigits (xs ++ [t]) a = ((scandigits xs a).1, (scandigits xs a).2 ++ [t]) := by
  induction xs with
  | nil =>
    intro a
    simp [scandigits, ht]
  | cons b bs ih =>
    intro a
    by_cases hb : isdigit b
    · simp [scandigits, hb, ih]
    · simp [scandigits, hb]

/-- `parsenandm` never reads past a trailing byte that is neither a digit
nor `;` — exactly the situation of the CSI terminator. -/
lemma parsenandm_concat (t : Nat) (ht : ¬ isdigit t) (ht2 : t ≠ 59) (xs : List Nat) :
    parsenandm (xs ++ [t]) = parsenandm xs := by
  unfold parsenandm
  rw [scandigits_concat t ht xs 0]
  rcases h2 : (scandigits xs 0).2 with - | ⟨b, s2⟩
  · simp only [h2, List.nil_append]
    simp [ht2]
  · simp only [h2, List.cons_append]
    by_cases hb : b = 59
    · subst hb
      simp only [if_pos rfl]
      rw [scandigits_concat t ht s2 0]
    · simp [hb]

/-- A run of digit bytes is consumed whole, folding up its decimal value. -/
lemma scandigits_all (ds : List Nat) (hds : ∀ b ∈ ds, isdigit b) :
    ∀ a, scandigits ds a = (ds.foldl (fun x d => x * 10 + (d - 48)) a, []) := by
  induction ds with
  | nil =>
    intro a
    simp [scandigits]
  | cons b bs ih =>
    intro a
    have hb : isdigit b := hds b (by simp)
    simp only [scandigits, if_pos hb, List.foldl_cons]
    exact ih (fun x hx => hds x (by simp [hx])) _

/-- The digit scan stops at the first non-digit byte. -/
lemma scandigits_stop (ds : List Nat) (hds : ∀ b ∈ ds, isdigit b)
    (b : Nat) (hb : ¬ isdigit b) (rest : List Nat) :
    ∀ a, scandigits (ds ++ b :: rest) a =
      (ds.foldl (fun x d => x * 10 + (d - 48)) a, b :: rest) := by
  induction ds with
  | nil =>
    intro a
    simp [scandigits, hb]
  | cons d ds ih =>
    intro a
    have hd : isdigit d := hds d (by simp)
    simp only [List.cons_append, scandigits, if_pos hd, List.foldl_cons]
    exact ih (fun x hx => hds x (by simp [hx])) _

/-- On a parameter string of two `;`-separated digit runs, `parsenandm`
returns their decimal values. -/
lemma parsenandm_two (ds1 ds2 : List Nat)
    (h1 : ∀ b ∈ ds1, isdigit b) (h2 : ∀ b ∈ ds2, isdigit b) :
    parsenandm (ds1 ++ 59 :: ds2) = (natOfDigits ds1, natOfDigits ds2) := by
  unfold parsenandm
  rw [scandigits_stop ds1 h1 59 (by decide) ds2 0]
  simp only [if_pos rfl]
  rw [scandigits_all ds2 h2 0]
  rfl

/-- On a single digit run, `parsenandm` returns its value and leaves the
second parameter at 0. -/
lemma parsenandm_one (ds1 : List Nat) (h1 : ∀ b ∈ ds1, isdigit b) :
    parsenandm ds1 = (natOfDigits ds1, 0) := by
  unfold parsenandm
  rw [scandigits_all ds1 h1 0]
  rfl

/-- Processing the full enable-alternative-buffer sequence from the text
state: emitted verbatim, cursor untouched, cursor snapshot saved. -/
lemma run_enable (p : Params) (s : MachineState) (hp : s.parser = ParserTag.text) :
    run p s xtermenablealternativebuffer =
      (⟨ParserTag.text, [], s.row, s.column, s.row, s.column⟩,
       [OutputItem.raw xtermenablealternativebuffer]) := by
  obtain ⟨tag, kp, r, c, pr, pc⟩ := s
  cases hp
  have hf : fputsBytes [27, 91, 63, 49, 48, 52, 57, 104] =
      [27, 91, 63, 49, 48, 52, 57, 104] := by decide
  simp +decide [run, step, parsetext, parseescapesequence, xtermenablealternativebuffer,
    xtermdisablealternativebuffer, csiComplete, oscComplete, titleComplete, isalpha, csidispatch,
    parsenandm, scandigits, isdigit, hf]

/-- Processing the full disable-alternative-buffer sequence from the text
state: emitted verbatim, cursor restored from the snapshot. -/
lemma run_disable (p : Params) (s : MachineState) (hp : s.parser = ParserTag.text) :
    run p s xtermdisablealternativebuffer =
      (⟨ParserTag.text, [], s.prevrow, s.prevcolumn, s.prevrow, s.prevcolumn⟩,
       [OutputItem.raw xtermdisablealternativebuffer]) := by
  obtain ⟨tag, kp, r, c, pr, pc⟩ := s
  cases hp
  have hf : fputsBytes [27, 91, 63, 49, 48, 52, 57, 108] =
      [27, 91, 63, 49, 48, 52, 57, 108] := by decide
  simp +decide [run, step, parsetext, parseescapesequence, xtermenablealternativebuffer,
    xtermdisablealternativebuffer, csiComplete, oscComplete, titleComplete, isalpha, csidispatch,
    parsenandm, scandigits, isdigit, hf]

/-- Once `parseutf8` holds a lead byte that matches none of the three
multi-byte patterns, no later byte can satisfy a completion condition:
the buffer only grows and nothing is ever emitted. -/
lemma run_utf8_stuck (p : Params) (b0 : Nat)
    (hn2 : b0 / 32 ≠ 6) (hn3 : b0 / 16 ≠ 14) (hn4 : b0 / 8 ≠ 30) (bs : List Nat) :
    ∀ (tail : List Nat) (r c pr pc : Int),
    run p ⟨ParserTag.utf8, b0 :: tail, r, c, pr, pc⟩ bs =
      (⟨ParserTag.utf8, b0 :: (tail ++ bs), r, c, pr, pc⟩, []) := by
  induction bs with
  | nil =>
    intro tail r c pr pc
    simp [run]
  | cons b bs ih =>
    intro tail r c pr pc
    have hstep : step p ⟨ParserTag.utf8, b0 :: tail, r, c, pr, pc⟩ b =
        (⟨ParserTag.utf8, b0 :: (tail ++ [b]), r, c, pr, pc⟩, []) := by
      simp [step, parseutf8, hn2, hn3, hn4]
    simp only [run, hstep]
    rw [ih (tail ++ [b]) r c pr pc]
    simp

/-- Closing a `ESC [ …` buffer with a terminator byte that is a letter
other than `h`/`l`, or `@`: the CSI branch fires, the buffer is emitted
verbatim and the cursor moves by `csidispatch`. -/
lemma step_esc_terminator (p : Params) (mid : List Nat) (t : Nat) (r c pr pc : Int)
    (halpha : isalpha t ∨ t = 64) (h104 : t ≠ 104) (h108 : t ≠ 108) :
    step p ⟨ParserTag.escapesequence, 27 :: 91 :: mid, r, c, pr, pc⟩ t =
      (⟨ParserTag.text, [],
        (csidispatch t r c
          (Int.ofNat (if (parsenandm (mid ++ [t])).1 = 0 then 1 else (parsenandm (mid ++ [t])).1))
          (Int.ofNat (if (parsenandm (mid ++ [t])).2 = 0 then 1 else (parsenandm (mid ++ [t])).2))).1,
        (csidispatch t r c
          (Int.ofNat (if (parsenandm (mid ++ [t])).1 = 0 then 1 else (parsenandm (mid ++ [t])).1))
          (Int.ofNat (if (parsenandm (mid ++ [t])).2 = 0 then 1 else (parsenandm (mid ++ [t])).2))).2,
        pr, pc⟩,
       [OutputItem.raw (fputsBytes (27 :: 91 :: (mid ++ [t])))]) := by
  have hkeep : (27 :: 91 :: mid) ++ [t] = 27 :: 91 :: (mid ++ [t]) := by
    simp
  have hcsi : csiComplete (27 :: 91 :: (mid ++ [t])) := by
    refine ⟨rfl, ?_⟩
    rw [csi_buffer_last]
    exact halpha
  have hen := csi_buffer_ne_enable mid t h104
  have hdis := csi_buffer_ne_disable mid t h108
  have hris : ¬ ((27 :: 91 :: (mid ++ [t])).length = 2 ∧
      (27 :: 91 :: (mid ++ [t])).getD 1 0 = 99) := by
    intro hr
    have := hr.1
    simp at this
  have hlast := csi_buffer_last mid t
  have hdrop : (27 :: 91 :: (mid ++ [t])).drop 2 = mid ++ [t] := rfl
  simp only [step, parseescapesequence, hkeep]
  rw [if_neg hen, if_neg hen, if_neg hen, if_neg hdis, if_neg hris, if_neg hen,
    if_neg hdis, if_neg hris, if_pos hcsi, hlast, hdrop]

/-- C4: for every plain text byte consumed in the Text state the emitted
bytes are one colour-set item whose RGB channels are the three-phase sine
formula `sin(frequency * phase + k * 2π/3) * 127 + 128` (`k = 0, 1, 2`)
evaluated at `phase = offset + row + column / spread` for the cursor
position at emission time (the position after the byte's own cursor
update), followed by the byte itself; and the classifier is deterministic:
equal parameters, state and input give an identical result. -/
theorem C4_plaintext_colour_formula (p : Params) (s : MachineState)
    (hp : s.parser = ParserTag.text) (ch : Nat) (h27 : ch ≠ 27) (h128 : ch < 128)
    (p2 : Params) (s2 : MachineState) (xs : List Nat) (hps : p2 = p) (hss : s2 = s) :
    ((step p s ch).2 =
      [OutputItem.colourSet
        ⌊Real.sin (p.freq * (p.os + (((if ch = 10 then s.row + 1 else s.row) : Int) : ℝ) +
          (((if ch = 10 then 1 else if ch = 8 then s.column - 1 else if ch = 13 then 1
             else if ch = 9 then s.column + (8 - Int.tmod s.column 8)
             else s.column + 1) : Int) : ℝ) / p.spread) + 0) * 127 + 128⌋
        ⌊Real.sin (p.freq * (p.os + (((if ch = 10 then s.row + 1 else s.row) : Int) : ℝ) +
          (((if ch = 10 then 1 else if ch = 8 then s.column - 1 else if ch = 13 then 1
             else if ch = 9 then s.column + (8 - Int.tmod s.column 8)
             else s.column + 1) : Int) : ℝ) / p.spread) + 2 * Real.pi / 3) * 127 + 128⌋
        ⌊Real.sin (p.freq * (p.os + (((if ch = 10 then s.row + 1 else s.row) : Int) : ℝ) +
          (((if ch = 10 then 1 else if ch = 8 then s.column - 1 else if ch = 13 then 1
             else if ch = 9 then s.column + (8 - Int.tmod s.column 8)
             else s.column + 1) : Int) : ℝ) / p.spread) + 4 * Real.pi / 3) * 127 + 128⌋,
       OutputItem.raw [ch]]) ∧
    run p2 s2 xs = run p s xs := by
  refine ⟨?_, by rw [hps, hss]⟩
  obtain ⟨tag, kp, r, c, pr, pc⟩ := s
  cases hp
  have hle : ¬ (128 ≤ ch) := by omega
  simp only [step, parsetext, rainbow]
  rw [if_neg h27, if_neg hle]

/-- C4 witness. -/
theorem C4_plaintext_colour_formula_witness :
    (initialState.parser = ParserTag.text ∧ (65 : Nat) ≠ 27 ∧ (65 : Nat) < 128) ∧
    (((step pW initialState 65).2 =
      [OutputItem.colourSet
        ⌊Real.sin (pW.freq * (pW.os + (((if (65 : Nat) = 10 then initialState.row + 1 else initialState.row) : Int) : ℝ) +
          (((if (65 : Nat) = 10 then 1 else if (65 : Nat) = 8 then initialState.column - 1 else if (65 : Nat) = 13 then 1
             else if (65 : Nat) = 9 then initialState.column + (8 - Int.tmod initialState.column 8)
             else initialState.column + 1) : Int) : ℝ) / pW.spread) + 0) * 127 + 128⌋
        ⌊Real.sin (pW.freq * (pW.os + (((if (65 : Nat) = 10 then initialState.row + 1 else initialState.row) : Int) : ℝ) +
          (((if (65 : Nat) = 10 then 1 else if (65 : Nat) = 8 then initialState.column - 1 else if (65 : Nat) = 13 then 1
             else if (65 : Nat) = 9 then initialState.column + (8 - Int.tmod initialState.column 8)
             else initialState.column + 1) : Int) : ℝ) / pW.spread) + 2 * Real.pi / 3) * 127 + 128⌋
        ⌊Real.sin (pW.freq * (pW.os + (((if (65 : Nat) = 10 then initialState.row + 1 else initialState.row) : Int) : ℝ) +
          (((if (65 : Nat) = 10 then 1 else if (65 : Nat) = 8 then initialState.column - 1 else if (65 : Nat) = 13 then 1
             else if (65 : Nat) = 9 then initialState.column + (8 - Int.tmod initialState.column 8)
             else initialState.column + 1) : Int) : ℝ) / pW.spread) + 4 * Real.pi / 3) * 127 + 128⌋,
       OutputItem.raw [65]]) ∧
     run pW initialState [66] = run pW initialState [66]) :=
  ⟨⟨rfl, by decide, by decide⟩,
   C4_plaintext_colour_formula pW initialState rfl 65 (by decide) (by decide)
     pW initialState [66] rfl rfl⟩

/-- C6 (counterexample): processing a tab in the Text state with the
cursor at column 3 does not leave the column at 9. -/
theorem C6_tab_counterexample :
    (run pW ⟨ParserTag.text, [], 1, 3, 0, 0⟩ [9]).1.column ≠ 9 := by
  decide

/-- C6 (amended): processing a tab in the Text state with the cursor at
column 3 leaves the column at 8, the next multiple of 8 as computed by
`column += 8 - column % 8`. -/
theorem C6_tab_from_column_three (p : Params) (row pr pc : Int) (kp : List Nat) :
    (run p ⟨ParserTag.text, kp, row, 3, pr, pc⟩ [9]).1.column = 8 := by
  simp +decide [run, step, parsetext]

/-- C8 (counterexample): the code's 8-bit reduced colour sequence differs
from the spec's `⌊channel / 256 * 6⌋` formula at `(255, 255, 255)`. -/
theorem C8_counterexample :
    ansicolour8bit 255 255 255 ≠ ansicolour8bitSpec 255 255 255 := by
  decide

/-- C8 (amended): for every RGB triple with each channel in `[0, 255]`,
the 8-bit reduced encoding emits `ESC[38;5;Nm` with
`N = 16 + 36 * ⌊R / 256 * 5⌋ + 6 * ⌊G / 256 * 5⌋ + ⌊B / 256 * 5⌋`
(multiplier 5, not the specification's 6). -/
theorem C8_eightbit_encoding (r g b : Nat)
    (_hr : r ≤ 255) (_hg : g ≤ 255) (_hb : b ≤ 255) :
    ansicolour8bit r g b =
      [27, 91, 51, 56, 59, 53, 59] ++
        (Nat.toDigits 10
          (16 + 36 * (r * 5 / 256) + 6 * (g * 5 / 256) + b * 5 / 256)).map Char.toNat ++
        [109] := by
  rfl

/-- C8 witness. -/
theorem C8_eightbit_encoding_witness :
    ((200 : Nat) ≤ 255) ∧
    ansicolour8bit 200 100 50 =
      [27, 91, 51, 56, 59, 53, 59] ++
        (Nat.toDigits 10
          (16 + 36 * (200 * 5 / 256) + 6 * (100 * 5 / 256) + 50 * 5 / 256)).map Char.toNat ++
        [109] :=
  ⟨by decide, C8_eightbit_encoding 200 100 50 (by decide) (by decide) (by decide)⟩

/-- C9 (counterexample): when the relay loop terminates with an error the
session still ends, but the colour-reset sequence is not written at all —
it is not the last thing written to stdout. -/
theorem C9_counterexample :
    ¬ ansicolourresetBytes <:+ parentStdout true true true false true [] := by
  decide

/-- C9 (amended): on the graceful teardown path — the relay loop and the
terminal-mode restore both succeed — the colour-reset sequence `ESC[0m` is
emitted and is the last thing written to stdout; on the error paths
`parent` returns before emitting it. -/
theorem C9_reset_last_on_graceful (ws sig raw treset : Bool) (loopOut : List Nat)
    (hws : ws = true) (hsig : sig = true) (hraw : raw = true) (ht : treset = true) :
    parentStdout ws sig raw true treset loopOut = loopOut ++ ansicolourresetBytes := by
  subst hws hsig hraw ht
  rfl

/-- C9 witness. -/
theorem C9_reset_last_on_graceful_witness :
    (true = true) ∧
    parentStdout true true true true true [65] = [65] ++ ansicolourresetBytes :=
  ⟨rfl, C9_reset_last_on_graceful true true true true [65] rfl rfl rfl rfl⟩

/-- C10: if the disable-alternative-buffer sequence arrives with the save
slot still in its zero-initialised state (no prior enable in the session),
the cursor is set to row 0, column 0 — the slot's initial value — rather
than left unchanged. -/
theorem C10_disable_without_prior_enable (p : Params) (xs : List Nat)
    (hp : (run p initialState xs).1.parser = ParserTag.text)
    (hr : (run p initialState xs).1.prevrow = 0)
    (hc : (run p initialState xs).1.prevcolumn = 0) :
    (run p (run p initialState xs).1 xtermdisablealternativebuffer).1.row = 0 ∧
    (run p (run p initialState xs).1 xtermdisablealternativebuffer).1.column = 0 := by
  rw [run_disable p _ hp]
  exact ⟨hr, hc⟩

/-- C10 witness. -/
theorem C10_disable_without_prior_enable_witness :
    ((run pW initialState [104, 105]).1.parser = ParserTag.text ∧
     (run pW initialState [104, 105]).1.prevrow = 0 ∧
     (run pW initialState [104, 105]).1.prevcolumn = 0) ∧
    ((run pW (run pW initialState [104, 105]).1 xtermdisablealternativebuffer).1.row = 0 ∧
     (run pW (run pW initialState [104, 105]).1 xtermdisablealternativebuffer).1.column = 0) :=
  ⟨⟨by decide, by decide, by decide⟩,
   C10_disable_without_prior_enable pW [104, 105] (by decide) (by decide) (by decide)⟩

/-- C7 (counterexample): after the lone continuation byte `0x80` the
parser has not returned to the Text state and nothing has been emitted,
contradicting the claimed immediate length-1 close. -/
theorem C7_counterexample :
    (run pW initialState [128]).2 = [] ∧
    (run pW initialState [128]).1.parser ≠ ParserTag.text := by
  decide

/-- C7 (amended): a byte with the high bit set whose leading-bits pattern
is none of `110xxxxx`, `1110xxxx`, `11110xxx` enters the UTF-8
continuation state and never satisfies a completion condition: whatever
bytes follow, the parser stays in that state and emits nothing (the
source's own fix list records this: "Leave utf8 after 4 unrecognised
bytes"). -/
theorem C7_unrecognised_highbit_never_returns (p : Params) (s : MachineState)
    (hp : s.parser = ParserTag.text) (b0 : Nat) (h128 : 128 ≤ b0)
    (hn2 : b0 / 32 ≠ 6) (hn3 : b0 / 16 ≠ 14) (hn4 : b0 / 8 ≠ 30) (rest : List Nat) :
    (run p s (b0 :: rest)).1.parser = ParserTag.utf8 ∧
    (run p s (b0 :: rest)).2 = [] := by
  obtain ⟨tag, kp, r, c, pr, pc⟩ := s
  cases hp
  have hb27 : ¬ (b0 = 27) := by omega
  have hstep : step p ⟨ParserTag.text, kp, r, c, pr, pc⟩ b0 =
      (⟨ParserTag.utf8, [b0], r, c, pr, pc⟩, []) := by
    simp [step, parsetext, hb27, h128]
  simp only [run, hstep]
  rw [run_utf8_stuck p b0 hn2 hn3 hn4 rest [] r c pr pc]
  simp

/-- C7 witness. -/
theorem C7_unrecognised_highbit_never_returns_witness :
    (initialState.parser = ParserTag.text ∧ (128 : Nat) ≤ 128 ∧
     (128 : Nat) / 32 ≠ 6 ∧ (128 : Nat) / 16 ≠ 14 ∧ (128 : Nat) / 8 ≠ 30) ∧
    ((run pW initialState (128 :: [97, 98])).1.parser = ParserTag.utf8 ∧
     (run pW initialState (128 :: [97, 98])).2 = []) :=
  ⟨⟨rfl, by decide, by decide, by decide, by decide⟩,
   C7_unrecognised_highbit_never_returns pW initialState rfl 128 (by decide)
     (by decide) (by decide) (by decide) [97, 98]⟩

/-- C3: a multi-byte UTF-8 sequence — a lead byte declaring length 2, 3
or 4 followed by that many continuation bytes (pattern `10xxxxxx`, i.e.
values in `[128, 191]`, in particular never NUL, so the `fputs` write is
not truncated) — is emitted, once the declared number of bytes has
accumulated, as exactly one colour-set item followed by all the raw
bytes; the column advances by exactly one for the whole character, the
phase uses the post-increment column, and the parser returns to the Text
state. -/
theorem C3_utf8_single_coloured_unit (p : Params) (s : MachineState)
    (hp : s.parser = ParserTag.text) (b0 : Nat) (rest : List Nat)
    (hlen : (b0 / 32 = 6 ∧ rest.length = 1) ∨ (b0 / 16 = 14 ∧ rest.length = 2) ∨
            (b0 / 8 = 30 ∧ rest.length = 3))
    (hcont : ∀ b ∈ rest, 128 ≤ b ∧ b ≤ 191) :
    (run p s (b0 :: rest)).2 =
      [OutputItem.colourSet
        (rainbow p.freq (p.os + (s.row : ℝ) + ((s.column + 1 : Int) : ℝ) / p.spread)).1
        (rainbow p.freq (p.os + (s.row : ℝ) + ((s.column + 1 : Int) : ℝ) / p.spread)).2.1
        (rainbow p.freq (p.os + (s.row : ℝ) + ((s.column + 1 : Int) : ℝ) / p.spread)).2.2,
       OutputItem.raw (b0 :: rest)] ∧
    (run p s (b0 :: rest)).1.parser = ParserTag.text ∧
    (run p s (b0 :: rest)).1.column = s.column + 1 ∧
    (run p s (b0 :: rest)).1.row = s.row := by
  obtain ⟨tag, kp, r, c, pr, pc⟩ := s
  cases hp
  rcases hlen with ⟨hb, hr⟩ | ⟨hb, hr⟩ | ⟨hb, hr⟩
  · have h27 : ¬ (b0 = 27) := by omega
    have h128 : 128 ≤ b0 := by omega
    obtain ⟨c1, rfl⟩ := List.length_eq_one.mp hr
    have hc1 := hcont c1 (by simp)
    have hf : fputsBytes [b0, c1] = [b0, c1] := by
      apply fputsBytes_eq_self
      intro x hx
      simp at hx
      rcases hx with rfl | rfl <;> omega
    simp [run, step, parsetext, parseutf8, h27, h128, hb, hf]
  · have h27 : ¬ (b0 = 27) := by omega
    have h128 : 128 ≤ b0 := by omega
    have e2 : ¬ (b0 / 32 = 6) := by omega
    rcases rest with - | ⟨c1, rest2⟩
    · simp at hr
    rcases rest2 with - | ⟨c2, rest3⟩
    · simp at hr
    have hr3 : rest3 = [] := by
      simp at hr
      exact hr
    subst hr3
    have hc1 := hcont c1 (by simp)
    have hc2 := hcont c2 (by simp)
    have hf : fputsBytes [b0, c1, c2] = [b0, c1, c2] := by
      apply fputsBytes_eq_self
      intro x hx
      simp at hx
      rcases hx with rfl | rfl | rfl <;> omega
    simp [run, step, parsetext, parseutf8, h27, h128, hb, e2, hf]
  · have h27 : ¬ (b0 = 27) := by omega
    have h128 : 128 ≤ b0 := by omega
    have e2 : ¬ (b0 / 32 = 6) := by omega
    have e3 : ¬ (b0 / 16 = 14) := by omega
    rcases rest with - | ⟨c1, rest2⟩
    · simp at hr
    rcases rest2 with - | ⟨c2, rest3⟩
    · simp at hr
    rcases rest3 with - | ⟨c3, rest4⟩
    · simp at hr
    have hr4 : rest4 = [] := by
      simp at hr
      exact hr
    subst hr4
    have hc1 := hcont c1 (by simp)
    have hc2 := hcont c2 (by simp)
    have hc3 := hcont c3 (by simp)
    have hf : fputsBytes [b0, c1, c2, c3] = [b0, c1, c2, c3] := by
      apply fputsBytes_eq_self
      intro x hx
      simp at hx
      rcases hx with rfl | rfl | rfl | rfl <;> omega
    simp [run, step, parsetext, parseutf8, h27, h128, hb, e2, e3, hf]

/-- C3 witness: the Euro sign bytes `0xE2 0x82 0xAC`. -/
theorem C3_utf8_single_coloured_unit_witness :
    (initialState.parser = ParserTag.text ∧
     ((226 : Nat) / 16 = 14 ∧ ([130, 172] : List Nat).length = 2) ∧
     (∀ b ∈ ([130, 172] : List Nat), 128 ≤ b ∧ b ≤ 191)) ∧
    ((run pW initialState (226 :: [130, 172])).2 =
      [OutputItem.colourSet
        (rainbow pW.freq (pW.os + (initialState.row : ℝ) +
          ((initialState.column + 1 : Int) : ℝ) / pW.spread)).1
        (rainbow pW.freq (pW.os + (initialState.row : ℝ) +
          ((initialState.column + 1 : Int) : ℝ) / pW.spread)).2.1
        (rainbow pW.freq (pW.os + (initialState.row : ℝ) +
          ((initialState.column + 1 : Int) : ℝ) / pW.spread)).2.2,
       OutputItem.raw (226 :: [130, 172])] ∧
     (run pW initialState (226 :: [130, 172])).1.parser = ParserTag.text ∧
     (run pW initialState (226 :: [130, 172])).1.column = initialState.column + 1 ∧
     (run pW initialState (226 :: [130, 172])).1.row = initialState.row) :=
  ⟨⟨rfl, ⟨by decide, by decide⟩, by decide⟩,
   C3_utf8_single_coloured_unit pW initialState rfl 226 [130, 172]
     (Or.inr (Or.inl ⟨by decide, by decide⟩)) (by decide)⟩

/-- C5: processing `ESC[?1049h` saves the current row and column into the
single save slot, and processing a later `ESC[?1049l` restores them, for
any intervening bytes that leave the save slot untouched (no further
alternate-screen enable) and leave the parser back in the Text state —
however the intervening output moved the cursor. -/
theorem C5_alternate_screen_roundtrip (p : Params) (s0 : MachineState)
    (h0 : s0.parser = ParserTag.text) (mid : List Nat)
    (hmidp : (run p (run p s0 xtermenablealternativebuffer).1 mid).1.parser =
      ParserTag.text)
    (hmidr : (run p (run p s0 xtermenablealternativebuffer).1 mid).1.prevrow = s0.row)
    (hmidc : (run p (run p s0 xtermenablealternativebuffer).1 mid).1.prevcolumn =
      s0.column) :
    (run p s0 xtermenablealternativebuffer).1.prevrow = s0.row ∧
    (run p s0 xtermenablealternativebuffer).1.prevcolumn = s0.column ∧
    (run p (run p (run p s0 xtermenablealternativebuffer).1 mid).1
        xtermdisablealternativebuffer).1.row = s0.row ∧
    (run p (run p (run p s0 xtermenablealternativebuffer).1 mid).1
        xtermdisablealternativebuffer).1.column = s0.column := by
  have he := run_enable p s0 h0
  refine ⟨by rw [he], by rw [he], ?_, ?_⟩
  · rw [run_disable p _ hmidp]
    exact hmidr
  · rw [run_disable p _ hmidp]
    exact hmidc

/-- C5 witness: enter at `(5, 7)`, move the cursor with `a`, newline, `b`,
leave, and land back at `(5, 7)`. -/
theorem C5_alternate_screen_roundtrip_witness :
    ((⟨ParserTag.text, [], 5, 7, 0, 0⟩ : MachineState).parser = ParserTag.text ∧
     (run pW (run pW ⟨ParserTag.text, [], 5, 7, 0, 0⟩ xtermenablealternativebuffer).1
        [97, 10, 98]).1.parser = ParserTag.text ∧
     (run pW (run pW ⟨ParserTag.text, [], 5, 7, 0, 0⟩ xtermenablealternativebuffer).1
        [97, 10, 98]).1.prevrow = (⟨ParserTag.text, [], 5, 7, 0, 0⟩ : MachineState).row ∧
     (run pW (run pW ⟨ParserTag.text, [], 5, 7, 0, 0⟩ xtermenablealternativebuffer).1
        [97, 10, 98]).1.prevcolumn =
       (⟨ParserTag.text, [], 5, 7, 0, 0⟩ : MachineState).column) ∧
    ((run pW ⟨ParserTag.text, [], 5, 7, 0, 0⟩ xtermenablealternativebuffer).1.prevrow =
       (⟨ParserTag.text, [], 5, 7, 0, 0⟩ : MachineState).row ∧
     (run pW ⟨ParserTag.text, [], 5, 7, 0, 0⟩ xtermenablealternativebuffer).1.prevcolumn =
       (⟨ParserTag.text, [], 5, 7, 0, 0⟩ : MachineState).column ∧
     (run pW (run pW (run pW ⟨ParserTag.text, [], 5, 7, 0, 0⟩
          xtermenablealternativebuffer).1 [97, 10, 98]).1
        xtermdisablealternativebuffer).1.row =
       (⟨ParserTag.text, [], 5, 7, 0, 0⟩ : MachineState).row ∧
     (run pW (run pW (run pW ⟨ParserTag.text, [], 5, 7, 0, 0⟩
          xtermenablealternativebuffer).1 [97, 10, 98]).1
        xtermdisablealternativebuffer).1.column =
       (⟨ParserTag.text, [], 5, 7, 0, 0⟩ : MachineState).column) :=
  ⟨⟨rfl, by decide, by decide, by decide⟩,
   C5_alternate_screen_roundtrip pW ⟨ParserTag.text, [], 5, 7, 0, 0⟩ rfl [97, 10, 98]
     (by decide) (by decide) (by decide)⟩

/-- Accumulating non-terminator bytes inside a `ESC [ …` sequence never
completes it: the buffer grows and nothing is emitted. -/
lemma run_csi_accumulate (p : Params) (mid : List Nat) (r c pr pc : Int)
    (hmidb : ∀ b ∈ mid, ¬ isalpha b ∧ b ≠ 64) :
    run p ⟨ParserTag.escapesequence, [27, 91], r, c, pr, pc⟩ mid =
      (⟨ParserTag.escapesequence, [27, 91] ++ mid, r, c, pr, pc⟩, []) := by
  apply run_esc_stay
  intro k hk
  have htake : mid.take (k + 1) = mid.take k ++ [mid[k]] := by
    rw [← List.take_concat_get mid k hk, List.concat_eq_append]
  rw [htake]
  show ¬ escCompletes (27 :: 91 :: (mid.take k ++ [mid[k]]))
  rw [escCompletes_csi_buffer]
  have hb := hmidb mid[k] (List.getElem_mem hk)
  rintro (hc | hc)
  · exact hb.1 hc
  · exact hb.2 hc

/-- C1 (counterexample): the screen/tmux title form `ESC k x ESC \` is not
passed through byte-for-byte: the classifier emits `ESC k` at once, then
recolours the title byte `x`, so the written bytes differ from the input
bytes of the sequence. -/
theorem C1_title_counterexample :
    renderItems (run pW initialState [27, 107, 120, 27, 92]).2 ≠
      [27, 107, 120, 27, 92] := by
  intro h
  have h2 := congrArg (fun l => l.getD 2 0) h
  simp +decide [run, step, parsetext, parseescapesequence, csiComplete, oscComplete,
    titleComplete, isalpha, renderItems, renderItem, csidispatch, parsenandm, scandigits,
    isdigit, List.getD] at h2

/-- C1 (amended): for every byte sequence that forms one complete escape
sequence the classifier recognizes — it starts with ESC, no proper prefix
of length at least 2 satisfies a completion condition, and the whole
sequence does (this covers CSI ending in an ASCII letter or `@`, OSC
ending in BEL or `ESC \`, DCS ending in `ESC \`, and the fixed-length
legacy forms), and whose bytes are all nonzero — the bytes written equal
the input bytes exactly, with no colour-set sequence inserted, and the
parser returns to the Text state.  Two exclusions the code forces: the
`ESC k … ESC \` title form is not recognized as one sequence (its
two-byte delimiters `ESC k` and `ESC \` each pass through verbatim but
the title bytes between them are recoloured as plain text), and a
sequence with an embedded NUL byte is truncated at the NUL by the
`fputs` write. -/
theorem C1_recognised_sequences_verbatim (p : Params) (s : MachineState)
    (hp : s.parser = ParserTag.text) (seq : List Nat) (hhead : seq.head? = some 27)
    (hpre : ∀ k, k < seq.length → 2 ≤ k → ¬ escCompletes (seq.take k))
    (hdone : escCompletes seq) (hnz : ∀ b ∈ seq, b ≠ 0) :
    (run p s seq).2 = [OutputItem.raw seq] ∧
    renderItems (run p s seq).2 = seq ∧
    (run p s seq).1.parser = ParserTag.text := by
  rcases seq with - | ⟨a, body⟩
  · simp at hhead
  have ha : a = 27 := by simpa using hhead
  subst ha
  rcases List.eq_nil_or_concat body with rfl | ⟨mid, t, hbody⟩
  · exact absurd hdone (by decide)
  rw [List.concat_eq_append] at hbody
  subst hbody
  have h1 := step_text_esc p s hp
  have hstay : ∀ k, k < mid.length →
      ¬ escCompletes (([27] : List Nat) ++ mid.take (k + 1)) := by
    intro k hk
    have hk2 : k + 2 < (27 :: (mid ++ [t])).length := by
      simp
      omega
    have hp2 := hpre (k + 2) hk2 (by omega)
    have htake : (27 :: (mid ++ [t])).take (k + 2) = 27 :: mid.take (k + 1) := by
      simp [List.take_append_of_le_length (by omega : k + 1 ≤ mid.length)]
    rw [htake] at hp2
    simpa using hp2
  have hdone2 : escCompletes (([27] : List Nat) ++ mid ++ [t]) := by
    simpa using hdone
  have hall := run_esc_all p mid t [27] s.row s.column s.prevrow s.prevcolumn hstay hdone2
  have hfull : fputsBytes (([27] : List Nat) ++ mid ++ [t]) =
      ([27] : List Nat) ++ mid ++ [t] := by
    apply fputsBytes_eq_self
    intro b hb
    apply hnz
    simpa using hb
  simp only [run, h1]
  refine ⟨?_, ?_, ?_⟩
  · rw [hall.1, hfull]
    simp
  · rw [hall.1, hfull]
    simp [renderItems, renderItem]
  · exact hall.2

/-- C1 witness: the complete CSI sequence `ESC [ 3 1 m`. -/
theorem C1_recognised_sequences_verbatim_witness :
    (initialState.parser = ParserTag.text ∧
     ([27, 91, 51, 49, 109] : List Nat).head? = some 27 ∧
     (∀ k, k < ([27, 91, 51, 49, 109] : List Nat).length → 2 ≤ k →
       ¬ escCompletes (([27, 91, 51, 49, 109] : List Nat).take k)) ∧
     escCompletes [27, 91, 51, 49, 109] ∧
     (∀ b ∈ ([27, 91, 51, 49, 109] : List Nat), b ≠ 0)) ∧
    ((run pW initialState [27, 91, 51, 49, 109]).2 =
       [OutputItem.raw [27, 91, 51, 49, 109]] ∧
     renderItems (run pW initialState [27, 91, 51, 49, 109]).2 = [27, 91, 51, 49, 109] ∧
     (run pW initialState [27, 91, 51, 49, 109]).1.parser = ParserTag.text) :=
  ⟨⟨rfl, by decide, by decide, by decide, by decide⟩,
   C1_recognised_sequences_verbatim pW initialState rfl [27, 91, 51, 49, 109]
     (by decide) (by decide) (by decide) (by decide)⟩

/-- C2: a completed CSI sequence `ESC [ params t` whose parameter bytes are
up to two `;`-separated decimal digit runs and whose terminator `t` is one
of `A B C D E F G H f @`: the sequence is emitted verbatim, the parser
returns to the Text state, and the cursor is updated by terminator with
`n`, `m` the parsed decimal values, each replaced by 1 when absent or
zero — `A` row-=n, `B` row+=n, `C` column+=n, `D` column-=n, `E` row+=n
and column=1, `F` row-=n and column=1, `G` column=n, `H`/`f` row=n and
column=m, `@` no cursor change. -/
theorem C2_csi_cursor_dispatch (p : Params) (s : MachineState)
    (hp : s.parser = ParserTag.text) (ds1 ds2 : List Nat) (withM : Bool) (t : Nat)
    (hd1 : ∀ b ∈ ds1, isdigit b) (hd2 : ∀ b ∈ ds2, isdigit b)
    (ht : t = 65 ∨ t = 66 ∨ t = 67 ∨ t = 68 ∨ t = 69 ∨ t = 70 ∨ t = 71 ∨ t = 72 ∨
          t = 102 ∨ t = 64) :
    (run p s (27 :: 91 :: ((ds1 ++ (if withM then 59 :: ds2 else [])) ++ [t]))).2 =
      [OutputItem.raw (27 :: 91 :: ((ds1 ++ (if withM then 59 :: ds2 else [])) ++ [t]))] ∧
    (run p s (27 :: 91 :: ((ds1 ++ (if withM then 59 :: ds2 else [])) ++ [t]))).1.parser =
      ParserTag.text ∧
    (run p s (27 :: 91 :: ((ds1 ++ (if withM then 59 :: ds2 else [])) ++ [t]))).1.row =
      (if t = 65 then s.row - Int.ofNat (if natOfDigits ds1 = 0 then 1 else natOfDigits ds1)
       else if t = 66 then s.row + Int.ofNat (if natOfDigits ds1 = 0 then 1 else natOfDigits ds1)
       else if t = 69 then s.row + Int.ofNat (if natOfDigits ds1 = 0 then 1 else natOfDigits ds1)
       else if t = 70 then s.row - Int.ofNat (if natOfDigits ds1 = 0 then 1 else natOfDigits ds1)
       else if t = 72 ∨ t = 102 then Int.ofNat (if natOfDigits ds1 = 0 then 1 else natOfDigits ds1)
       else s.row) ∧
    (run p s (27 :: 91 :: ((ds1 ++ (if withM then 59 :: ds2 else [])) ++ [t]))).1.column =
      (if t = 67 then s.column + Int.ofNat (if natOfDigits ds1 = 0 then 1 else natOfDigits ds1)
       else if t = 68 then s.column - Int.ofNat (if natOfDigits ds1 = 0 then 1 else natOfDigits ds1)
       else if t = 69 ∨ t = 70 then 1
       else if t = 71 then Int.ofNat (if natOfDigits ds1 = 0 then 1 else natOfDigits ds1)
       else if t = 72 ∨ t = 102 then
         Int.ofNat (if (if withM then natOfDigits ds2 else 0) = 0 then 1
                    else (if withM then natOfDigits ds2 else 0))
       else s.column) := by
  obtain ⟨tag, kp, r, c, pr, pc⟩ := s
  cases hp
  have ht59 : t ≠ 59 := by
    rcases ht with rfl | rfl | rfl | rfl | rfl | rfl | rfl | rfl | rfl | rfl <;> decide
  have htd : ¬ isdigit t := by
    rcases ht with rfl | rfl | rfl | rfl | rfl | rfl | rfl | rfl | rfl | rfl <;> decide
  have ht104 : t ≠ 104 := by
    rcases ht with rfl | rfl | rfl | rfl | rfl | rfl | rfl | rfl | rfl | rfl <;> decide
  have ht108 : t ≠ 108 := by
    rcases ht with rfl | rfl | rfl | rfl | rfl | rfl | rfl | rfl | rfl | rfl <;> decide
  have halpha : isalpha t ∨ t = 64 := by
    rcases ht with rfl | rfl | rfl | rfl | rfl | rfl | rfl | rfl | rfl | rfl <;> decide
  have hn : parsenandm ((ds1 ++ (if withM then 59 :: ds2 else [])) ++ [t]) =
      (natOfDigits ds1, if withM then natOfDigits ds2 else 0) := by
    rw [parsenandm_concat t htd ht59]
    cases withM
    · simpa using parsenandm_one ds1 hd1
    · simpa using parsenandm_two ds1 ds2 hd1 hd2
  have hmidb : ∀ b ∈ ds1 ++ (if withM then 59 :: ds2 else []), ¬ isalpha b ∧ b ≠ 64 := by
    intro b hb
    rcases List.mem_append.mp hb with h | h
    · have := hd1 b h
      unfold isdigit at this
      unfold isalpha
      constructor
      · intro hc
        rcases hc with ⟨h1, h2⟩ | ⟨h1, h2⟩ <;> omega
      · omega
    · cases withM
      · simp at h
      · simp at h
        rcases h with rfl | h
        · exact ⟨by decide, by decide⟩
        · have := hd2 b h
          unfold isdigit at this
          unfold isalpha
          constructor
          · intro hc
            rcases hc with ⟨h1, h2⟩ | ⟨h1, h2⟩ <;> omega
          · omega
  have h1 : step p ⟨ParserTag.text, kp, r, c, pr, pc⟩ 27 =
      (⟨ParserTag.escapesequence, [27], r, c, pr, pc⟩, []) :=
    step_text_esc p _ rfl
  have h2 : step p ⟨ParserTag.escapesequence, [27], r, c, pr, pc⟩ 91 =
      (⟨ParserTag.escapesequence, [27, 91], r, c, pr, pc⟩, []) :=
    step_esc_stay p _ 91 rfl (by decide : ¬ escCompletes ([27] ++ [91]))
  simp only [run, h1, h2]
  rw [run_append]
  rw [run_csi_accumulate p (ds1 ++ (if withM then 59 :: ds2 else [])) r c pr pc hmidb]
  have hterm : step p
      ⟨ParserTag.escapesequence, [27, 91] ++ (ds1 ++ (if withM then 59 :: ds2 else [])),
        r, c, pr, pc⟩ t =
      (⟨ParserTag.text, [],
        (csidispatch t r c
          (Int.ofNat (if (parsenandm ((ds1 ++ (if withM then 59 :: ds2 else [])) ++ [t])).1 = 0 then 1
            else (parsenandm ((ds1 ++ (if withM then 59 :: ds2 else [])) ++ [t])).1))
          (Int.ofNat (if (parsenandm ((ds1 ++ (if withM then 59 :: ds2 else [])) ++ [t])).2 = 0 then 1
            else (parsenandm ((ds1 ++ (if withM then 59 :: ds2 else [])) ++ [t])).2))).1,
        (csidispatch t r c
          (Int.ofNat (if (parsenandm ((ds1 ++ (if withM then 59 :: ds2 else [])) ++ [t])).1 = 0 then 1
            else (parsenandm ((ds1 ++ (if withM then 59 :: ds2 else [])) ++ [t])).1))
          (Int.ofNat (if (parsenandm ((ds1 ++ (if withM then 59 :: ds2 else [])) ++ [t])).2 = 0 then 1
            else (parsenandm ((ds1 ++ (if withM then 59 :: ds2 else [])) ++ [t])).2))).2,
        pr, pc⟩,
       [OutputItem.raw
         (fputsBytes (27 :: 91 :: ((ds1 ++ (if withM then 59 :: ds2 else [])) ++ [t])))]) :=
    step_esc_terminator p _ t r c pr pc halpha ht104 ht108
  have hnzseq : ∀ b ∈ 27 :: 91 :: ((ds1 ++ (if withM then 59 :: ds2 else [])) ++ [t]),
      b ≠ 0 := by
    intro b hb
    rcases List.mem_cons.mp hb with rfl | hb
    · decide
    rcases List.mem_cons.mp hb with rfl | hb
    · decide
    rcases List.mem_append.mp hb with hb | hb
    · rcases List.mem_append.mp hb with hb | hb
      · have := hd1 b hb
        unfold isdigit at this
        omega
      · cases withM
        · simp at hb
        · simp at hb
          rcases hb with rfl | hb
          · decide
          · have := hd2 b hb
            unfold isdigit at this
            omega
    · simp at hb
      subst hb
      rcases ht with rfl | rfl | rfl | rfl | rfl | rfl | rfl | rfl | rfl | rfl <;> decide
  have hfseq := fputsBytes_eq_self _ hnzseq
  simp only [run, hterm, hn, hfseq]
  rcases ht with rfl | rfl | rfl | rfl | rfl | rfl | rfl | rfl | rfl | rfl <;>
    simp [csidispatch]

/-- C2 witness: `ESC [ 5 ; 1 0 H` from `(20, 30)` sets the cursor to
`(5, 10)`. -/
theorem C2_csi_cursor_dispatch_witness :
    ((⟨ParserTag.text, [], 20, 30, 0, 0⟩ : MachineState).parser = ParserTag.text ∧
     (∀ b ∈ ([53] : List Nat), isdigit b) ∧ (∀ b ∈ ([49, 48] : List Nat), isdigit b) ∧
     ((72 : Nat) = 65 ∨ (72 : Nat) = 66 ∨ (72 : Nat) = 67 ∨ (72 : Nat) = 68 ∨
      (72 : Nat) = 69 ∨ (72 : Nat) = 70 ∨ (72 : Nat) = 71 ∨ (72 : Nat) = 72 ∨
      (72 : Nat) = 102 ∨ (72 : Nat) = 64)) ∧
    ((run pW ⟨ParserTag.text, [], 20, 30, 0, 0⟩
        (27 :: 91 :: ((([53] : List Nat) ++ (if true then 59 :: [49, 48] else [])) ++ [72]))).2 =
      [OutputItem.raw
        (27 :: 91 :: ((([53] : List Nat) ++ (if true then 59 :: [49, 48] else [])) ++ [72]))] ∧
     (run pW ⟨ParserTag.text, [], 20, 30, 0, 0⟩
        (27 :: 91 :: ((([53] : List Nat) ++ (if true then 59 :: [49, 48] else [])) ++ [72]))).1.parser =
       ParserTag.text ∧
     (run pW ⟨ParserTag.text, [], 20, 30, 0, 0⟩
        (27 :: 91 :: ((([53] : List Nat) ++ (if true then 59 :: [49, 48] else [])) ++ [72]))).1.row =
       (if (72 : Nat) = 65 then (⟨ParserTag.text, [], 20, 30, 0, 0⟩ : MachineState).row -
          Int.ofNat (if natOfDigits [53] = 0 then 1 else natOfDigits [53])
        else if (72 : Nat) = 66 then (⟨ParserTag.text, [], 20, 30, 0, 0⟩ : MachineState).row +
          Int.ofNat (if natOfDigits [53] = 0 then 1 else natOfDigits [53])
        else if (72 : Nat) = 69 then (⟨ParserTag.text, [], 20, 30, 0, 0⟩ : MachineState).row +
          Int.ofNat (if natOfDigits [53] = 0 then 1 else natOfDigits [53])
        else if (72 : Nat) = 70 then (⟨ParserTag.text, [], 20, 30, 0, 0⟩ : MachineState).row -
          Int.ofNat (if natOfDigits [53] = 0 then 1 else natOfDigits [53])
        else if (72 : Nat) = 72 ∨ (72 : Nat) = 102 then
          Int.ofNat (if natOfDigits [53] = 0 then 1 else natOfDigits [53])
        else (⟨ParserTag.text, [], 20, 30, 0, 0⟩ : MachineState).row) ∧
     (run pW ⟨ParserTag.text, [], 20, 30, 0, 0⟩
        (27 :: 91 :: ((([53] : List Nat) ++ (if true then 59 :: [49, 48] else [])) ++ [72]))).1.column =
       (if (72 : Nat) = 67 then (⟨ParserTag.text, [], 20, 30, 0, 0⟩ : MachineState).column +
          Int.ofNat (if natOfDigits [53] = 0 then 1 else natOfDigits [53])
        else if (72 : Nat) = 68 then (⟨ParserTag.text, [], 20, 30, 0, 0⟩ : MachineState).column -
          Int.ofNat (if natOfDigits [53] = 0 then 1 else natOfDigits [53])
        else if (72 : Nat) = 69 ∨ (72 : Nat) = 70 then 1
        else if (72 : Nat) = 71 then
          Int.ofNat (if natOfDigits [53] = 0 then 1 else natOfDigits [53])
        else if (72 : Nat) = 72 ∨ (72 : Nat) = 102 then
          Int.ofNat (if (if true then natOfDigits [49, 48] else 0) = 0 then 1
                     else (if true then natOfDigits [49, 48] else 0))
        else (⟨ParserTag.text, [], 20, 30, 0, 0⟩ : MachineState).column)) :=
  ⟨⟨rfl, by decide, by decide, by decide⟩,
   C2_csi_cursor_dispatch pW ⟨ParserTag.text, [], 20, 30, 0, 0⟩ rfl [53] [49, 48] true 72
     (by decide) (by decide) (by decide)⟩

end Rainbow
